import Mathlib

/-!
Verification of the progress-tracking core of the `listing_extractor`
repository (`backend/services/progress_tracker.py` and the SSE streaming
endpoint of `backend/api/routes.py`).

The Python code is shallowly embedded: the two registries of
`ProgressTracker` (insertion-ordered `dict`s) become association lists,
arbitrary-precision Python `int`s become `Nat`/`Int`, and the one place the
source computes with IEEE-754 double-precision floats —
`int(((completed + failed) / total_files) * 100)` — is modelled exactly by
an integer-arithmetic round-to-nearest-even model of binary64 (`floatDivRep`,
`floatMul100Trunc`).  `json.dumps` (default separators, `ensure_ascii`) is
modelled by `Json.dumps`, and the SSE generator of `progress_stream` by a
fuel-bounded loop over a sequence of observed tracker states (one observed
state per loop iteration; the tracker may be mutated concurrently between
iterations).
-/

/-! ## Association lists standing for Python dicts

Python dicts preserve insertion order; assignment to an existing key keeps
its position.  `lookupA` is `d.get(k)`, `insertA` is `d[k] = v`, `eraseA`
is `del d[k]`. -/

def lookupA {α : Type} : List (String × α) → String → Option α
  | [], _ => none
  | (k, v) :: rest, key => if k = key then some v else lookupA rest key

def insertA {α : Type} : List (String × α) → String → α → List (String × α)
  | [], key, v => [(key, v)]
  | (k, w) :: rest, key, v =>
    if k = key then (key, v) :: rest else (k, w) :: insertA rest key v

def eraseA {α : Type} : List (String × α) → String → List (String × α)
  | [], _ => []
  | (k, w) :: rest, key => if k = key then rest else (k, w) :: eraseA rest key

/-! ## Exact model of the one binary64 computation of the source

`_update_session_progress` runs `int(((completed + failed) / total_files) * 100)`:
two ints are divided with float true division, the quotient is multiplied by
`100.0`, and `int()` truncates toward zero.  Both float operations round to
nearest, ties to even, at 53 bits of precision (subnormal results round at
absolute precision 2^-1074).  The model below computes that bit-exactly with
Nat/Int arithmetic; each float is carried as an exact pair (mantissa, binary
exponent). -/

/-- Floor of log base 2, by fuel (`nlog2fuel n n` is exact for every `n ≥ 1`). -/
def nlog2fuel : Nat → Nat → Nat
  | 0, _ => 0
  | fuel + 1, n => if 2 ≤ n then nlog2fuel fuel (n / 2) + 1 else 0

def nlog2 (n : Nat) : Nat := nlog2fuel n n

/-- Largest `e : Int` with `2^e ≤ a / b`, for `1 ≤ a` and `1 ≤ b`. -/
def floatExpDiv (a b : Nat) : Int :=
  if b ≤ a then (nlog2 (a / b) : Int)
  else
    let k := nlog2 (b / a)
    if a * 2 ^ k = b then -(k : Int) else -((k : Int) + 1)

/-- Round `A / B` (with `B ≠ 0`) to the nearest integer, ties to even. -/
def roundEven (A B : Nat) : Nat :=
  let d := A / B
  let r := A % B
  if 2 * r < B then d else if B < 2 * r then d + 1 else if d % 2 = 0 then d else d + 1

/-- Round `M * 2^s` to the nearest integer, ties to even (exact when `0 ≤ s`). -/
def mulPow2 (M : Nat) (s : Int) : Nat :=
  match s with
  | .ofNat n => M * 2 ^ n
  | .negSucc n => roundEven M (2 ^ (n + 1))

/-- The binary64 nearest-even rounding of the rational `a / b` (`b ≠ 0`), as an
exact pair `(m, q)` of value `m * 2^q`.  This is the result of Python's
`a / b` on two nonnegative ints. -/
def floatDivRep (a b : Nat) : Nat × Int :=
  if a = 0 then (0, 0)
  else
    let e := floatExpDiv a b
    let q := if e < -1022 then (-1074 : Int) else e - 52
    (match q with
     | .ofNat n => roundEven a (b * 2 ^ n)
     | .negSucc n => roundEven (a * 2 ^ (n + 1)) b, q)

/-- `int(x * 100)` where `x` is the nonnegative binary64 value `rep.1 * 2^rep.2`:
the product is rounded to binary64 (nearest, ties to even), then truncated. -/
def floatMul100Trunc (rep : Nat × Int) : Nat :=
  let M := rep.1 * 100
  if M = 0 then 0
  else
    let e := (nlog2 M : Int) + rep.2
    let q := if e < -1022 then (-1074 : Int) else e - 52
    let m := mulPow2 M (rep.2 - q)
    match q with
    | .ofNat n => m * 2 ^ n
    | .negSucc n => m / 2 ^ (n + 1)

/-- `int(((completed + failed) / total_files) * 100)` exactly as the Python
source computes it (`done` stands for `completed + failed`), and `100` when
`total_files` is `0` (the source's `else` branch). -/
def overall_progress_py (done total : Nat) : Int :=
  if 0 < total then (floatMul100Trunc (floatDivRep done total) : Int) else 100

/-! ## Data model (`progress_tracker.py`) -/

def ExtractionStatus.PENDING : String := "pending"
def ExtractionStatus.EXTRACTING : String := "extracting"
def ExtractionStatus.PROCESSING : String := "processing"
def ExtractionStatus.COMPLETED : String := "completed"
def ExtractionStatus.FAILED : String := "failed"

/-- Dataclass `FileProgress`. -/
structure FileProgress where
  file_id : String
  filename : String
  status : String
  progress : Int
  error_message : Option String
deriving DecidableEq

/-- Dataclass `SessionProgress`. -/
structure SessionProgress where
  session_id : String
  total_files : Nat
  completed_files : Nat
  failed_files : Nat
  current_file : Option FileProgress
  overall_progress : Int
  status : String
deriving DecidableEq

/-- The two registries of `ProgressTracker`: `_sessions` and `_file_progress`. -/
structure ProgressTracker where
  sessions : List (String × SessionProgress)
  file_progress : List (String × List (String × FileProgress))
deriving DecidableEq

def emptyTracker : ProgressTracker := ⟨[], []⟩

/-- Count of files in the registry slice whose status equals `st`
(`sum(1 for f in files.values() if f.status == st)`). -/
def countStatus (st : String) (fs : List (String × FileProgress)) : Nat :=
  fs.countP (fun p => p.2.status == st)

/-- Lines 151-160 of `_update_session_progress`: the derived session status. -/
def session_status_of (total completed failed : Nat) : String :=
  if completed + failed = total then
    (if failed = total then ExtractionStatus.FAILED else ExtractionStatus.COMPLETED)
  else if 0 < completed + failed then ExtractionStatus.PROCESSING
  else ExtractionStatus.PENDING

/-- Lines 132-160 of `_update_session_progress`, once the session record has
been found: recount completed/failed over the file set, set `current_file`
to `files.get(current_file_id)`, recompute `overall_progress` and the status. -/
def update_session_core (s : SessionProgress) (fs : List (String × FileProgress))
    (current_file_id : String) : SessionProgress :=
  let completed := countStatus ExtractionStatus.COMPLETED fs
  let failed := countStatus ExtractionStatus.FAILED fs
  { s with
    completed_files := completed
    failed_files := failed
    current_file := lookupA fs current_file_id
    overall_progress := overall_progress_py (completed + failed) s.total_files
    status := session_status_of s.total_files completed failed }

/-- `_update_session_progress(session_id, current_file_id)`.  The source
returns early when `session_id` is not in `self._sessions`; it then indexes
`self._file_progress[session_id]` directly, which its only caller
(`update_file_progress`) has already checked is present — `getD []` covers
the unreachable missing case. -/
def update_session_progress (t : ProgressTracker) (session_id current_file_id : String) :
    ProgressTracker :=
  match lookupA t.sessions session_id with
  | none => t
  | some s =>
    let fs := (lookupA t.file_progress session_id).getD []
    { t with sessions := insertA t.sessions session_id (update_session_core s fs current_file_id) }

/-- One `FileProgress(file_id=..., filename=..., status=PENDING, progress=0)`. -/
def freshFile (file_id filename : String) : FileProgress :=
  ⟨file_id, filename, ExtractionStatus.PENDING, 0, none⟩

/-- The loop of `initialize_session`: `for file_id, filename in zip(file_ids,
filenames): self._file_progress[session_id][file_id] = FileProgress(...)`. -/
def initFiles (file_ids filenames : List String) : List (String × FileProgress) :=
  (file_ids.zip filenames).foldl (fun m p => insertA m p.1 (freshFile p.1 p.2)) []

/-- `initialize_session(session_id, file_ids, filenames)`. -/
def initialize_session (t : ProgressTracker) (session_id : String)
    (file_ids filenames : List String) : ProgressTracker :=
  { sessions := insertA t.sessions session_id
      ⟨session_id, file_ids.length, 0, 0, none, 0, ExtractionStatus.PENDING⟩
    file_progress := insertA t.file_progress session_id (initFiles file_ids filenames) }

/-- `update_file_progress(session_id, file_id, status, progress=0,
error_message=None)`: a no-op when the session or the file is unknown,
otherwise overwrite the file's status/progress/error_message and recompute
the session aggregate. -/
def update_file_progress (t : ProgressTracker) (session_id file_id status : String)
    (progress : Int) (error_message : Option String) : ProgressTracker :=
  match lookupA t.file_progress session_id with
  | none => t
  | some fs =>
    match lookupA fs file_id with
    | none => t
    | some fp =>
      let fp2 := { fp with status := status, progress := progress,
                           error_message := error_message }
      let t2 := { t with
        file_progress := insertA t.file_progress session_id (insertA fs file_id fp2) }
      update_session_progress t2 session_id file_id

/-- `get_session_progress(session_id)`: `self._sessions.get(session_id)`.
The value handed back is the live record, not a copy (see
`setStatusViaSnapshot` for what that means for callers that assign to it). -/
def get_session_progress (t : ProgressTracker) (session_id : String) :
    Option SessionProgress :=
  lookupA t.sessions session_id

/-- `get_file_progress(session_id, file_id)`. -/
def get_file_progress (t : ProgressTracker) (session_id file_id : String) :
    Option FileProgress :=
  match lookupA t.file_progress session_id with
  | some fs => lookupA fs file_id
  | none => none

/-- `get_all_files_progress(session_id)`: the file dict, `{}` if unknown. -/
def get_all_files_progress (t : ProgressTracker) (session_id : String) :
    List (String × FileProgress) :=
  (lookupA t.file_progress session_id).getD []

/-- `remove_session(session_id)`. -/
def remove_session (t : ProgressTracker) (session_id : String) : ProgressTracker :=
  ⟨eraseA t.sessions session_id, eraseA t.file_progress session_id⟩

/-- Caller-side mutation through the value `get_session_progress` returns.
The source returns `self._sessions.get(session_id)` — a reference to the
stored, live `SessionProgress` object — so the caller's attribute assignment
`get_session_progress(sid).status = v` lands on the record held by the
tracker.  This definition is the tracker-observable effect of that composite
step (on a missing session Python would raise `AttributeError` on `None` and
change nothing). -/
def setStatusViaSnapshot (t : ProgressTracker) (session_id v : String) : ProgressTracker :=
  match lookupA t.sessions session_id with
  | none => t
  | some s => { t with sessions := insertA t.sessions session_id { s with status := v } }

/-! ## The JSON serialization (`json.dumps` with default options)

`to_dict` builds nested dicts of strings, ints and `None`; `to_sse_message`
serializes them with `json.dumps(data)`: separators `", "` and `": "`, keys
in insertion order, strings escaped with `ensure_ascii` (ASCII output,
`\uXXXX` escapes, surrogate pairs above U+FFFF). -/

def digitChar (n : Nat) : Char :=
  match n with
  | 0 => '0' | 1 => '1' | 2 => '2' | 3 => '3' | 4 => '4'
  | 5 => '5' | 6 => '6' | 7 => '7' | 8 => '8' | 9 => '9'
  | _ => '0'

def hexDigitChar (n : Nat) : Char :=
  match n with
  | 0 => '0' | 1 => '1' | 2 => '2' | 3 => '3' | 4 => '4'
  | 5 => '5' | 6 => '6' | 7 => '7' | 8 => '8' | 9 => '9'
  | 10 => 'a' | 11 => 'b' | 12 => 'c' | 13 => 'd' | 14 => 'e' | 15 => 'f'
  | _ => '0'

/-- Decimal digits of `n`, most significant first (`natReprL n n`, with the
fuel argument first, is exact: `n` halves at least once per division by 10). -/
def natReprL : Nat → Nat → List Char
  | 0, _ => []
  | fuel + 1, n => if n < 10 then [digitChar n] else natReprL fuel (n / 10) ++ [digitChar (n % 10)]

/-- Python `str` of a nonnegative int. -/
def natRepr (n : Nat) : String := ⟨natReprL (n + 1) n⟩

/-- Python `str` of an int, as `json.dumps` writes numbers. -/
def intRepr (i : Int) : String :=
  match i with
  | .ofNat n => natRepr n
  | .negSucc n => "-" ++ natRepr (n + 1)

def hex4 (n : Nat) : List Char :=
  [hexDigitChar (n / 4096 % 16), hexDigitChar (n / 256 % 16),
   hexDigitChar (n / 16 % 16), hexDigitChar (n % 16)]

/-- `json.dumps` escaping of one character (`ensure_ascii=True`). -/
def escCharL (c : Char) : List Char :=
  if c = '"' then ['\\', '"']
  else if c = '\\' then ['\\', '\\']
  else if c = '\n' then ['\\', 'n']
  else if c = '\r' then ['\\', 'r']
  else if c = '\t' then ['\\', 't']
  else if c.toNat = 8 then ['\\', 'b']
  else if c.toNat = 12 then ['\\', 'f']
  else if c.toNat < 32 then '\\' :: 'u' :: hex4 c.toNat
  else if c.toNat < 127 then [c]
  else if c.toNat < 65536 then '\\' :: 'u' :: hex4 c.toNat
  else '\\' :: 'u' :: hex4 (55296 + (c.toNat - 65536) / 1024) ++
       '\\' :: 'u' :: hex4 (56320 + (c.toNat - 65536) % 1024)

/-- A JSON string literal: `"` + escaped characters + `"`. -/
def encodeJsonString (s : String) : String :=
  ⟨'"' :: (s.data.map escCharL).flatten ++ ['"']⟩

/-- The JSON values `to_dict` produces (and arrays, for completeness). -/
inductive Json where
  | null : Json
  | bool : Bool → Json
  | num : Int → Json
  | str : String → Json
  | arr : List Json → Json
  | obj : List (String × Json) → Json

mutual

/-- `json.dumps(v)` with CPython's default separators and key order. -/
def Json.dumps : Json → String
  | .null => "null"
  | .bool true => "true"
  | .bool false => "false"
  | .num i => intRepr i
  | .str s => encodeJsonString s
  | .arr xs => "[" ++ Json.dumpsArr xs ++ "]"
  | .obj fields => "\x7b" ++ Json.dumpsObj fields ++ "\x7d"

def Json.dumpsArr : List Json → String
  | [] => ""
  | [x] => Json.dumps x
  | x :: y :: xs => Json.dumps x ++ ", " ++ Json.dumpsArr (y :: xs)

def Json.dumpsObj : List (String × Json) → String
  | [] => ""
  | [(k, v)] => encodeJsonString k ++ ": " ++ Json.dumps v
  | (k, v) :: f :: fields =>
    encodeJsonString k ++ ": " ++ Json.dumps v ++ ", " ++ Json.dumpsObj (f :: fields)

end

def optStrJson : Option String → Json
  | none => Json.null
  | some s => Json.str s

/-- `dataclasses.asdict` of a `FileProgress`, as `to_dict` embeds it. -/
def fileProgressJson (f : FileProgress) : Json :=
  Json.obj [("file_id", Json.str f.file_id), ("filename", Json.str f.filename),
            ("status", Json.str f.status), ("progress", Json.num f.progress),
            ("error_message", optStrJson f.error_message)]

/-- `to_dict(session_id)`: `{}` for an unknown session, else the snapshot
dict in the source's key order. -/
def to_dict (t : ProgressTracker) (session_id : String) : Json :=
  match get_session_progress t session_id with
  | none => Json.obj []
  | some s =>
    Json.obj [("session_id", Json.str s.session_id),
              ("total_files", Json.num (s.total_files : Int)),
              ("completed_files", Json.num (s.completed_files : Int)),
              ("failed_files", Json.num (s.failed_files : Int)),
              ("overall_progress", Json.num s.overall_progress),
              ("status", Json.str s.status),
              ("current_file",
                match s.current_file with
                | none => Json.null
                | some f => fileProgressJson f),
              ("files", Json.obj ((get_all_files_progress t session_id).map
                (fun p => (p.1, fileProgressJson p.2))))]

/-- `to_sse_message(session_id)`: `f"data: {json.dumps(data)}\n\n"`. -/
def to_sse_message (t : ProgressTracker) (session_id : String) : String :=
  "data: " ++ Json.dumps (to_dict t session_id) ++ "\n\n"

/-! ## The SSE generator of `progress_stream` (`routes.py`, lines 284-320)

The generator reads the shared tracker once per loop iteration; between
iterations (around `time.sleep(1)`) the tracker may be mutated concurrently.
`σ : Nat → ProgressTracker` is the sequence of states the generator
observes, one per tracker-reading step, threaded by a read index. -/

/-- The Python dict-repr text the source's f-string interpolates for an
unknown session: not produced by `json.dumps`. -/
def sessionNotFoundText : String := "\x7b\x27error\x27: \x27Session not found\x27\x7d"

def sessionNotFoundFrame : String := "data: " ++ sessionNotFoundText ++ "\n\n"

/-- The `while iteration < max_iterations` loop.  Returns the yielded frames
and the next read index.  Each iteration: look the session up; if absent,
yield the error frame and break; else yield a snapshot frame and break if
the status is terminal, otherwise sleep and continue. -/
def sseLoop (σ : Nat → ProgressTracker) (session_id : String) :
    Nat → Nat → List String × Nat
  | n, 0 => ([], n)
  | n, fuel + 1 =>
    match get_session_progress (σ n) session_id with
    | none => ([sessionNotFoundFrame], n + 1)
    | some sp =>
      if sp.status = ExtractionStatus.COMPLETED ∨ sp.status = ExtractionStatus.FAILED then
        ([to_sse_message (σ n) session_id], n + 1)
      else
        let rest := sseLoop σ session_id (n + 1) fuel
        (to_sse_message (σ n) session_id :: rest.1, rest.2)

/-- All frames `generate()` yields on its normal control path: the initial
snapshot, the loop frames (`max_iterations = 600`), and the final
`yield progress_tracker.to_sse_message(session_id)` that runs after every
loop exit — the terminal break, the error break, and the iteration cap. -/
def progress_stream (σ : Nat → ProgressTracker) (session_id : String) : List String :=
  let r := sseLoop σ session_id 1 600
  (to_sse_message (σ 0) session_id :: r.1) ++ [to_sse_message (σ r.2) session_id]

/-! ## Lemmas about the dict model -/

theorem lookupA_insertA_self {α : Type} (m : List (String × α)) (k : String) (v : α) :
    lookupA (insertA m k v) k = some v := by
  induction m with
  | nil => simp [insertA, lookupA]
  | cons p rest ih =>
    obtain ⟨k0, w⟩ := p
    by_cases h0 : k0 = k
    · subst h0; simp [insertA, lookupA]
    · simp [insertA, lookupA, h0, ih]

theorem lookupA_insertA_ne {α : Type} (m : List (String × α)) {k k2 : String} (v : α)
    (h : k2 ≠ k) : lookupA (insertA m k v) k2 = lookupA m k2 := by
  induction m with
  | nil => simp [insertA, lookupA, Ne.symm h]
  | cons p rest ih =>
    obtain ⟨k0, w⟩ := p
    by_cases h0 : k0 = k
    · subst h0; simp [insertA, lookupA, Ne.symm h]
    · simp [insertA, lookupA, h0, ih]

theorem length_insertA_some {α : Type} (m : List (String × α)) (k : String) (v w : α)
    (h : lookupA m k = some w) : (insertA m k v).length = m.length := by
  induction m with
  | nil => simp [lookupA] at h
  | cons p rest ih =>
    obtain ⟨k0, w0⟩ := p
    by_cases h0 : k0 = k
    · subst h0; simp [insertA]
    · simp [lookupA, h0] at h
      simp [insertA, h0, ih h]

theorem length_insertA_none {α : Type} (m : List (String × α)) (k : String) (v : α)
    (h : lookupA m k = none) : (insertA m k v).length = m.length + 1 := by
  induction m with
  | nil => simp [insertA]
  | cons p rest ih =>
    obtain ⟨k0, w0⟩ := p
    by_cases h0 : k0 = k
    · subst h0; simp [lookupA] at h
    · simp [lookupA, h0] at h
      simp [insertA, h0, ih h]

theorem length_insertA_le {α : Type} (m : List (String × α)) (k : String) (v : α) :
    (insertA m k v).length ≤ m.length + 1 := by
  cases h : lookupA m k with
  | none => exact (length_insertA_none m k v h).le
  | some w => rw [length_insertA_some m k v w h]; omega

theorem mem_insertA {α : Type} (m : List (String × α)) (k : String) (v : α) (p : String × α)
    (h : p ∈ insertA m k v) : p = (k, v) ∨ p ∈ m := by
  induction m with
  | nil => simpa [insertA] using h
  | cons q rest ih =>
    obtain ⟨k0, w⟩ := q
    by_cases h0 : k0 = k
    · subst h0
      simp [insertA] at h
      rcases h with h | h
      · exact Or.inl (by simp [h])
      · exact Or.inr (by simp [h])
    · simp [insertA, h0] at h
      rcases h with h | h
      · exact Or.inr (by simp [h])
      · rcases ih h with h1 | h1
        · exact Or.inl h1
        · exact Or.inr (by simp [h1])

theorem countStatus_cons (st : String) (p : String × FileProgress)
    (fs : List (String × FileProgress)) :
    countStatus st (p :: fs) = countStatus st fs + (if p.2.status = st then 1 else 0) := by
  simp [countStatus, List.countP_cons]

theorem countStatus_le_length (st : String) (fs : List (String × FileProgress)) :
    countStatus st fs ≤ fs.length :=
  List.countP_le_length _

/-- Replacing the first entry of key `k` (whose value is `fp`) with value `v`
exchanges its contribution to a status count for `v`'s. -/
theorem countStatus_insertA (fs : List (String × FileProgress)) (k : String)
    (fp v : FileProgress) (st : String) (h : lookupA fs k = some fp) :
    countStatus st (insertA fs k v) + (if fp.status = st then 1 else 0)
      = countStatus st fs + (if v.status = st then 1 else 0) := by
  induction fs with
  | nil => simp [lookupA] at h
  | cons p rest ih =>
    obtain ⟨k0, w⟩ := p
    by_cases h0 : k0 = k
    · subst h0
      simp [lookupA] at h
      subst h
      simp [insertA, countStatus_cons]
      omega
    · simp [lookupA, h0] at h
      simp [insertA, h0, countStatus_cons]
      have := ih h
      omega

/-- Two distinct statuses count disjoint entries, so their counts add up to
the count of the disjunction. -/
theorem countStatus_add_le (fs : List (String × FileProgress)) :
    countStatus ExtractionStatus.COMPLETED fs + countStatus ExtractionStatus.FAILED fs
      ≤ fs.length := by
  induction fs with
  | nil => simp [countStatus]
  | cons p rest ih =>
    rw [countStatus_cons, countStatus_cons]
    have hne : ExtractionStatus.COMPLETED ≠ ExtractionStatus.FAILED := by decide
    by_cases hc : p.2.status = ExtractionStatus.COMPLETED
    · rw [if_pos hc, if_neg (by rw [hc]; exact hne)]
      simp only [List.length_cons]
      omega
    · rw [if_neg hc]
      simp only [List.length_cons]
      split <;> omega

/-! ## Lemmas about `initialize_session`'s file map -/

theorem foldl_insertFresh_mem (l : List (String × String)) (acc : List (String × FileProgress))
    (hacc : ∀ p ∈ acc, (p : String × FileProgress).2.status = ExtractionStatus.PENDING ∧
      p.2.progress = 0 ∧ p.2.error_message = none)
    (p : String × FileProgress)
    (h : p ∈ l.foldl (fun m q => insertA m q.1 (freshFile q.1 q.2)) acc) :
    p.2.status = ExtractionStatus.PENDING ∧ p.2.progress = 0 ∧ p.2.error_message = none := by
  induction l generalizing acc with
  | nil => exact hacc p h
  | cons q rest ih =>
    refine ih (insertA acc q.1 (freshFile q.1 q.2)) ?_ h
    intro r hr
    rcases mem_insertA _ _ _ _ hr with h1 | h1
    · rw [h1]; exact ⟨rfl, rfl, rfl⟩
    · exact hacc r h1

/-- Every file record created by `initialize_session` is pending at 0%. -/
theorem initFiles_mem (file_ids filenames : List String) (p : String × FileProgress)
    (h : p ∈ initFiles file_ids filenames) :
    p.2.status = ExtractionStatus.PENDING ∧ p.2.progress = 0 ∧ p.2.error_message = none :=
  foldl_insertFresh_mem _ [] (by intro r hr; simp at hr) p h

theorem foldl_insertFresh_length_le (l : List (String × String))
    (acc : List (String × FileProgress)) :
    (l.foldl (fun m q => insertA m q.1 (freshFile q.1 q.2)) acc).length
      ≤ acc.length + l.length := by
  induction l generalizing acc with
  | nil => simp
  | cons q rest ih =>
    simp only [List.foldl_cons, List.length_cons]
    have h1 := ih (insertA acc q.1 (freshFile q.1 q.2))
    have h2 := length_insertA_le acc q.1 (freshFile q.1 q.2)
    omega

theorem initFiles_length_le (file_ids filenames : List String) :
    (initFiles file_ids filenames).length ≤ file_ids.length := by
  have h1 := foldl_insertFresh_length_le (file_ids.zip filenames) []
  have h2 := List.length_zip file_ids filenames
  simp only [List.length_nil, Nat.zero_add] at h1
  have h3 : (file_ids.zip filenames).length ≤ file_ids.length := by
    rw [h2]; exact Nat.min_le_left _ _
  exact Nat.le_trans h1 h3

theorem foldl_insertFresh_length_nodup (l : List (String × String))
    (acc : List (String × FileProgress)) (hnd : (l.map Prod.fst).Nodup)
    (hfresh : ∀ k ∈ l.map Prod.fst, lookupA acc k = none) :
    (l.foldl (fun m q => insertA m q.1 (freshFile q.1 q.2)) acc).length
      = acc.length + l.length := by
  induction l generalizing acc with
  | nil => simp
  | cons q rest ih =>
    simp only [List.map_cons, List.nodup_cons] at hnd
    have hq : lookupA acc q.1 = none := hfresh q.1 (by simp)
    have hstep := length_insertA_none acc q.1 (freshFile q.1 q.2) hq
    have hrest : ∀ k ∈ rest.map Prod.fst,
        lookupA (insertA acc q.1 (freshFile q.1 q.2)) k = none := by
      intro k hk
      have hne : k ≠ q.1 := fun he => hnd.1 (he ▸ hk)
      rw [lookupA_insertA_ne _ _ hne]
      exact hfresh k (by simp [hk])
    have := ih (insertA acc q.1 (freshFile q.1 q.2)) hnd.2 hrest
    simp only [List.foldl_cons, List.length_cons]
    omega

/-- With unique file ids (and at least as many filenames), `initialize_session`
registers exactly one record per file id. -/
theorem initFiles_length (file_ids filenames : List String) (hnd : file_ids.Nodup)
    (hlen : file_ids.length ≤ filenames.length) :
    (initFiles file_ids filenames).length = file_ids.length := by
  have hfst : (file_ids.zip filenames).map Prod.fst = file_ids :=
    List.map_fst_zip _ _ hlen
  have h := foldl_insertFresh_length_nodup (file_ids.zip filenames) []
    (by rw [hfst]; exact hnd) (by intro k _; rfl)
  have h2 : (file_ids.zip filenames).length = file_ids.length := by
    rw [List.length_zip]; exact Nat.min_eq_left hlen
  simpa [initFiles, h2] using h

/-! ## Counting lemmas for the status state machine -/

theorem countStatus_eq_length_iff (st : String) (fs : List (String × FileProgress)) :
    countStatus st fs = fs.length ↔ ∀ p ∈ fs, (p : String × FileProgress).2.status = st := by
  rw [countStatus, List.countP_eq_length]
  simp

theorem countStatus_pos_iff (st : String) (fs : List (String × FileProgress)) :
    0 < countStatus st fs ↔ ∃ p ∈ fs, (p : String × FileProgress).2.status = st := by
  rw [countStatus, List.countP_pos_iff]
  simp

/-- The completed and failed counts add up to the count of terminal files. -/
theorem countStatus_add_eq_terminal (fs : List (String × FileProgress)) :
    countStatus ExtractionStatus.COMPLETED fs + countStatus ExtractionStatus.FAILED fs
      = fs.countP (fun p => p.2.status == ExtractionStatus.COMPLETED
          || p.2.status == ExtractionStatus.FAILED) := by
  induction fs with
  | nil => simp [countStatus]
  | cons p rest ih =>
    rw [countStatus_cons, countStatus_cons, List.countP_cons]
    by_cases hc : p.2.status = ExtractionStatus.COMPLETED
    · have hf : p.2.status ≠ ExtractionStatus.FAILED := by rw [hc]; decide
      have hb : (p.2.status == ExtractionStatus.COMPLETED
          || p.2.status == ExtractionStatus.FAILED) = true := by simp [hc]
      rw [if_pos hc, if_neg hf]
      simp only [hb, if_true]
      omega
    · by_cases hf : p.2.status = ExtractionStatus.FAILED
      · have hb : (p.2.status == ExtractionStatus.COMPLETED
            || p.2.status == ExtractionStatus.FAILED) = true := by simp [hf]
        rw [if_neg hc, if_pos hf]
        simp only [hb, if_true]
        omega
      · have hb : (p.2.status == ExtractionStatus.COMPLETED
            || p.2.status == ExtractionStatus.FAILED) = false := by simp [hc, hf]
        rw [if_neg hc, if_neg hf]
        simp only [hb, Bool.false_eq_true, if_false]
        omega

/-! ## Character-level facts about the serialized frames -/

/-- The serialized payload contains no newline (so the SSE frame ends in
exactly the two newline characters of its terminator). -/
def noNL (s : String) : Prop := '\n' ∉ s.data

instance (s : String) : Decidable (noNL s) :=
  inferInstanceAs (Decidable ('\n' ∉ s.data))

theorem noNL_append {a b : String} (ha : noNL a) (hb : noNL b) : noNL (a ++ b) := by
  simp only [noNL, String.data_append, List.mem_append] at *
  rintro (h | h)
  · exact ha h
  · exact hb h

theorem digitChar_mem (n : Nat) :
    digitChar n ∈ ['0', '1', '2', '3', '4', '5', '6', '7', '8', '9'] := by
  unfold digitChar
  split <;> decide

theorem hexDigitChar_ne_nl (n : Nat) : hexDigitChar n ≠ '\n' := by
  unfold hexDigitChar
  split <;> decide

theorem natReprL_mem (fuel n : Nat) (c : Char) (h : c ∈ natReprL fuel n) :
    c ∈ ['0', '1', '2', '3', '4', '5', '6', '7', '8', '9'] := by
  induction fuel generalizing n with
  | zero => simp [natReprL] at h
  | succ fuel ih =>
    unfold natReprL at h
    by_cases h10 : n < 10
    · rw [if_pos h10] at h
      simp at h
      rw [h]; exact digitChar_mem n
    · rw [if_neg h10] at h
      rcases List.mem_append.1 h with h1 | h1
      · exact ih _ h1
      · simp at h1
        rw [h1]; exact digitChar_mem (n % 10)

theorem intRepr_mem (i : Int) (c : Char) (h : c ∈ (intRepr i).data) :
    c ∈ ['-', '0', '1', '2', '3', '4', '5', '6', '7', '8', '9'] := by
  match i with
  | .ofNat n =>
    have := natReprL_mem (n + 1) n c h
    simp at this ⊢
    tauto
  | .negSucc n =>
    rcases List.mem_append.1 h with h1 | h1
    · simp at h1
      simp [h1]
    · have := natReprL_mem (n + 1 + 1) (n + 1) c h1
      simp at this ⊢
      tauto

theorem noNL_natRepr (n : Nat) : noNL (natRepr n) := by
  intro h
  have := natReprL_mem (n + 1) n _ h
  simp at this

theorem noNL_intRepr (i : Int) : noNL (intRepr i) := by
  intro h
  have := intRepr_mem i _ h
  simp at this

theorem not_nl_mem_hex4 (n : Nat) : '\n' ∉ hex4 n := by
  unfold hex4
  intro h
  simp only [List.mem_cons, List.not_mem_nil, or_false] at h
  rcases h with h | h | h | h <;> exact hexDigitChar_ne_nl _ h.symm

theorem escCharL_not_nl (c : Char) : '\n' ∉ escCharL c := by
  unfold escCharL
  split
  · decide
  · split
    · decide
    · split
      · decide
      · split
        · decide
        · split
          · decide
          · split
            · decide
            · split
              · decide
              · split
                · intro h
                  simp only [List.mem_cons] at h
                  rcases h with h | h | h
                  · exact absurd h (by decide)
                  · exact absurd h (by decide)
                  · exact not_nl_mem_hex4 _ h
                · split
                  · next hq hb hn hr ht h8 h12 h32 h127 =>
                    intro h
                    simp only [List.mem_cons, List.not_mem_nil, or_false] at h
                    exact hn h.symm
                  · split
                    · intro h
                      simp only [List.mem_cons] at h
                      rcases h with h | h | h
                      · exact absurd h (by decide)
                      · exact absurd h (by decide)
                      · exact not_nl_mem_hex4 _ h
                    · intro h
                      simp only [List.cons_append, List.mem_cons, List.mem_append] at h
                      rcases h with h | h | h
                      · exact absurd h (by decide)
                      · exact absurd h (by decide)
                      · rcases h with h | h
                        · exact not_nl_mem_hex4 _ h
                        · rcases h with h | h | h
                          · exact absurd h (by decide)
                          · exact absurd h (by decide)
                          · exact not_nl_mem_hex4 _ h

theorem noNL_encodeJsonString (s : String) : noNL (encodeJsonString s) := by
  intro h
  simp only [encodeJsonString] at h
  rcases List.mem_cons.1 h with h1 | h1
  · exact absurd h1 (by decide)
  · rcases List.mem_append.1 h1 with h2 | h2
    · rcases List.mem_flatten.1 h2 with ⟨l, hl, hc⟩
      rcases List.mem_map.1 hl with ⟨c0, _, rfl⟩
      exact escCharL_not_nl c0 hc
    · simp only [List.mem_cons, List.not_mem_nil, or_false] at h2
      exact absurd h2 (by decide)

theorem noNL_dumps_str (s : String) : noNL (Json.dumps (Json.str s)) :=
  noNL_encodeJsonString s

theorem noNL_dumps_num (i : Int) : noNL (Json.dumps (Json.num i)) :=
  noNL_intRepr i

theorem noNL_dumps_optStr (o : Option String) : noNL (Json.dumps (optStrJson o)) := by
  cases o with
  | none => intro h; exact absurd h (by decide)
  | some s => exact noNL_encodeJsonString s

/-- A serialized object whose field values serialize without newlines
serializes without newlines. -/
theorem noNL_dumpsObj (fields : List (String × Json))
    (h : ∀ f ∈ fields, noNL (Json.dumps (f : String × Json).2)) :
    noNL (Json.dumpsObj fields) := by
  induction fields with
  | nil => intro hc; exact absurd hc (by decide)
  | cons f rest ih =>
    cases rest with
    | nil =>
      obtain ⟨k, v⟩ := f
      exact noNL_append (noNL_append (noNL_encodeJsonString k) (by decide))
        (h (k, v) (by simp))
    | cons g rest2 =>
      obtain ⟨k, v⟩ := f
      exact noNL_append (noNL_append (noNL_append (noNL_append
        (noNL_encodeJsonString k) (by decide)) (h (k, v) (by simp))) (by decide))
        (ih (fun f2 hf2 => h f2 (by simp [hf2])))

theorem noNL_dumps_fileProgressJson (f : FileProgress) :
    noNL (Json.dumps (fileProgressJson f)) := by
  refine noNL_append (noNL_append (by decide) (noNL_dumpsObj _ ?_)) (by decide)
  intro p hp
  simp only [fileProgressJson, List.mem_cons, List.not_mem_nil, or_false] at hp
  rcases hp with rfl | rfl | rfl | rfl | rfl
  · exact noNL_dumps_str _
  · exact noNL_dumps_str _
  · exact noNL_dumps_str _
  · exact noNL_dumps_num _
  · exact noNL_dumps_optStr _

/-- The serialized snapshot contains no newline character. -/
theorem noNL_dumps_to_dict (t : ProgressTracker) (session_id : String) :
    noNL (Json.dumps (to_dict t session_id)) := by
  cases hg : get_session_progress t session_id with
  | none =>
    simp only [to_dict, hg]
    decide
  | some s =>
    simp only [to_dict, hg]
    refine noNL_append (noNL_append (by decide) (noNL_dumpsObj _ ?_)) (by decide)
    intro p hp
    simp only [List.mem_cons, List.not_mem_nil, or_false] at hp
    rcases hp with rfl | rfl | rfl | rfl | rfl | rfl | rfl | rfl
    · exact noNL_dumps_str _
    · exact noNL_dumps_num _
    · exact noNL_dumps_num _
    · exact noNL_dumps_num _
    · exact noNL_dumps_num _
    · exact noNL_dumps_str _
    · cases s.current_file with
      | none => intro h; exact absurd h (by decide)
      | some f => exact noNL_dumps_fileProgressJson f
    · refine noNL_append (noNL_append (by decide) (noNL_dumpsObj _ ?_)) (by decide)
      intro q hq
      rcases List.mem_map.1 hq with ⟨p0, _, rfl⟩
      exact noNL_dumps_fileProgressJson p0.2

/-- No JSON value serializes to the single-quoted dict-repr text of the
source's error frame: JSON text never opens an object with an apostrophe. -/
theorem dumps_ne_sessionNotFoundText (v : Json) : Json.dumps v ≠ sessionNotFoundText := by
  intro h
  cases v with
  | null => exact absurd h (by decide)
  | bool b => cases b <;> exact absurd h (by decide)
  | num i =>
    have hm : '\x7b' ∈ (intRepr i).data := by
      have hd : (intRepr i).data = sessionNotFoundText.data := congrArg String.data h
      rw [hd]; decide
    exact absurd (intRepr_mem i _ hm) (by decide)
  | str s =>
    have h1 : (Json.dumps (Json.str s)).data.head? = sessionNotFoundText.data.head? := by
      rw [h]
    rw [show (Json.dumps (Json.str s)).data.head? = some '"' from rfl] at h1
    exact absurd h1 (by decide)
  | arr xs =>
    have h1 : (Json.dumps (Json.arr xs)).data.head? = sessionNotFoundText.data.head? := by
      rw [h]
    rw [show (Json.dumps (Json.arr xs)).data.head? = some '[' from rfl] at h1
    exact absurd h1 (by decide)
  | obj fields =>
    cases fields with
    | nil => exact absurd h (by decide)
    | cons f rest =>
      obtain ⟨k, v0⟩ := f
      cases rest with
      | nil =>
        have h1 : (Json.dumps (Json.obj [(k, v0)])).data.tail.head?
            = sessionNotFoundText.data.tail.head? := by rw [h]
        rw [show (Json.dumps (Json.obj [(k, v0)])).data.tail.head? = some '"' from rfl] at h1
        exact absurd h1 (by decide)
      | cons g rest2 =>
        have h1 : (Json.dumps (Json.obj ((k, v0) :: g :: rest2))).data.tail.head?
            = sessionNotFoundText.data.tail.head? := by rw [h]
        rw [show (Json.dumps (Json.obj ((k, v0) :: g :: rest2))).data.tail.head?
            = some '"' from rfl] at h1
        exact absurd h1 (by decide)

/-- A snapshot frame is never the error frame. -/
theorem to_sse_ne_error_frame (t : ProgressTracker) (session_id : String) :
    to_sse_message t session_id ≠ sessionNotFoundFrame := by
  intro h
  have hd := congrArg String.data h
  simp only [to_sse_message, sessionNotFoundFrame, String.data_append] at hd
  have h1 := List.append_cancel_left (List.append_cancel_right hd)
  exact dumps_ne_sessionNotFoundText (to_dict t session_id) (String.ext h1)

/-! ## Lemmas about the streaming loop -/

theorem mem_sseLoop (σ : Nat → ProgressTracker) (session_id : String) (fuel n : Nat)
    (frame : String) (h : frame ∈ (sseLoop σ session_id n fuel).1) :
    frame = sessionNotFoundFrame ∨ ∃ k, frame = to_sse_message (σ k) session_id := by
  induction fuel generalizing n with
  | zero => simp [sseLoop] at h
  | succ fuel ih =>
    cases hg : get_session_progress (σ n) session_id with
    | none =>
      simp [sseLoop, hg] at h
      exact Or.inl h
    | some sp =>
      by_cases ht : sp.status = ExtractionStatus.COMPLETED ∨ sp.status = ExtractionStatus.FAILED
      · simp [sseLoop, hg, ht] at h
        exact Or.inr ⟨n, h⟩
      · simp [sseLoop, hg, ht] at h
        rcases h with h | h
        · exact Or.inr ⟨n, h⟩
        · exact ih (n + 1) h

/-- When the error frame appears among the loop's frames it is the last of
them, and it appears only once. -/
theorem sseLoop_error_last (σ : Nat → ProgressTracker) (session_id : String) (fuel n : Nat)
    (h : sessionNotFoundFrame ∈ (sseLoop σ session_id n fuel).1) :
    ∃ pre, (sseLoop σ session_id n fuel).1 = pre ++ [sessionNotFoundFrame] ∧
      sessionNotFoundFrame ∉ pre := by
  induction fuel generalizing n with
  | zero => simp [sseLoop] at h
  | succ fuel ih =>
    cases hg : get_session_progress (σ n) session_id with
    | none => exact ⟨[], by simp [sseLoop, hg], by simp⟩
    | some sp =>
      by_cases ht : sp.status = ExtractionStatus.COMPLETED ∨ sp.status = ExtractionStatus.FAILED
      · simp [sseLoop, hg, ht] at h
        exact absurd h.symm (to_sse_ne_error_frame _ _)
      · simp only [sseLoop, hg, ht, if_false] at h ⊢
        simp only [List.mem_cons] at h
        rcases h with h | h
        · exact absurd h.symm (to_sse_ne_error_frame _ _)
        · obtain ⟨pre, hpre, hnot⟩ := ih (n + 1) h
          refine ⟨to_sse_message (σ n) session_id :: pre, ?_, ?_⟩
          · simp only [List.cons_append]
            rw [← hpre]
          · intro hc
            rcases List.mem_cons.1 hc with hc1 | hc1
            · exact to_sse_ne_error_frame _ _ hc1.symm
            · exact hnot hc1

/-! ## Update sequences and the aggregation invariant -/

/-- The arguments of one `update_file_progress` call on a session. -/
structure UpdateCall where
  file_id : String
  status : String
  progress : Int
  error_message : Option String

/-- A sequence of `update_file_progress` calls against one session. -/
def applyUpdates (t : ProgressTracker) (session_id : String) (us : List UpdateCall) :
    ProgressTracker :=
  us.foldl (fun t2 u => update_file_progress t2 session_id u.file_id u.status u.progress
    u.error_message) t

/-- The derived-count invariant of a registered session: the stored counts are
recomputed from the file set, and the file set is no larger than
`total_files`. -/
def TrackerInv (t : ProgressTracker) (session_id : String) : Prop :=
  ∃ s fs, lookupA t.sessions session_id = some s ∧
    lookupA t.file_progress session_id = some fs ∧
    s.completed_files = countStatus ExtractionStatus.COMPLETED fs ∧
    s.failed_files = countStatus ExtractionStatus.FAILED fs ∧
    fs.length ≤ s.total_files

theorem trackerInv_init (t : ProgressTracker) (session_id : String)
    (file_ids filenames : List String) :
    TrackerInv (initialize_session t session_id file_ids filenames) session_id := by
  refine ⟨⟨session_id, file_ids.length, 0, 0, none, 0, ExtractionStatus.PENDING⟩,
    initFiles file_ids filenames, ?_, ?_, ?_, ?_, ?_⟩
  · exact lookupA_insertA_self _ _ _
  · exact lookupA_insertA_self _ _ _
  · symm
    rw [countStatus, List.countP_eq_zero]
    intro p hp
    have h1 := (initFiles_mem _ _ p hp).1
    simp [h1, ExtractionStatus.PENDING, ExtractionStatus.COMPLETED]
  · symm
    rw [countStatus, List.countP_eq_zero]
    intro p hp
    have h1 := (initFiles_mem _ _ p hp).1
    simp [h1, ExtractionStatus.PENDING, ExtractionStatus.FAILED]
  · exact initFiles_length_le _ _

theorem trackerInv_update (t : ProgressTracker) (session_id file_id status : String)
    (progress : Int) (error_message : Option String) (h : TrackerInv t session_id) :
    TrackerInv (update_file_progress t session_id file_id status progress error_message)
      session_id := by
  obtain ⟨s, fs, hs, hf, hc, hfl, hlen⟩ := h
  cases hfid : lookupA fs file_id with
  | none =>
    simp only [update_file_progress, hf, hfid]
    exact ⟨s, fs, hs, hf, hc, hfl, hlen⟩
  | some fp =>
    have hfp2 := lookupA_insertA_self t.file_progress session_id
      (insertA fs file_id ⟨fp.file_id, fp.filename, status, progress, error_message⟩)
    simp only [update_file_progress, hf, hfid, update_session_progress, hs, hfp2,
      Option.getD_some]
    refine ⟨update_session_core s
        (insertA fs file_id ⟨fp.file_id, fp.filename, status, progress, error_message⟩)
        file_id,
      insertA fs file_id ⟨fp.file_id, fp.filename, status, progress, error_message⟩,
      lookupA_insertA_self _ _ _, lookupA_insertA_self _ _ _, rfl, rfl, ?_⟩
    rw [length_insertA_some fs file_id _ fp hfid]
    exact hlen

theorem trackerInv_applyUpdates (t : ProgressTracker) (session_id : String)
    (us : List UpdateCall) (h : TrackerInv t session_id) :
    TrackerInv (applyUpdates t session_id us) session_id := by
  induction us generalizing t with
  | nil => exact h
  | cons u rest ih => exact ih _ (trackerInv_update _ _ _ _ _ _ h)

/-! ## The claims -/

/-- C1: for a session whose registered file set `fs` matches its
`total_files` (the data-model invariant `total_files = |files|`), the status
recomputed by `update_file_progress`'s recomputation is: with every file
terminal, `failed` iff all files failed and `completed` otherwise (one
completed file suffices even if every other file failed); with at least one
but not all files terminal, `processing`; with no terminal file (and at
least one file), `pending`. -/
theorem C1_terminal_rule (s : SessionProgress) (fs : List (String × FileProgress))
    (current_file_id : String) (htotal : s.total_files = fs.length) :
    ((∀ p ∈ fs, (p : String × FileProgress).2.status = ExtractionStatus.COMPLETED ∨
        (p : String × FileProgress).2.status = ExtractionStatus.FAILED) →
      (((update_session_core s fs current_file_id).status = ExtractionStatus.FAILED ↔
          ∀ p ∈ fs, (p : String × FileProgress).2.status = ExtractionStatus.FAILED) ∧
        ((¬ ∀ p ∈ fs, (p : String × FileProgress).2.status = ExtractionStatus.FAILED) →
          (update_session_core s fs current_file_id).status
            = ExtractionStatus.COMPLETED))) ∧
    ((∃ p ∈ fs, (p : String × FileProgress).2.status = ExtractionStatus.COMPLETED ∨
        (p : String × FileProgress).2.status = ExtractionStatus.FAILED) →
      (¬ ∀ p ∈ fs, (p : String × FileProgress).2.status = ExtractionStatus.COMPLETED ∨
        (p : String × FileProgress).2.status = ExtractionStatus.FAILED) →
      (update_session_core s fs current_file_id).status = ExtractionStatus.PROCESSING) ∧
    (fs ≠ [] →
      (∀ p ∈ fs, ¬((p : String × FileProgress).2.status = ExtractionStatus.COMPLETED ∨
        (p : String × FileProgress).2.status = ExtractionStatus.FAILED)) →
      (update_session_core s fs current_file_id).status = ExtractionStatus.PENDING) := by
  have hstat : (update_session_core s fs current_file_id).status
      = session_status_of s.total_files (countStatus ExtractionStatus.COMPLETED fs)
          (countStatus ExtractionStatus.FAILED fs) := rfl
  have hterm := countStatus_add_eq_terminal fs
  refine ⟨?_, ?_, ?_⟩
  · intro hall
    have hTlen : fs.countP (fun p => p.2.status == ExtractionStatus.COMPLETED
        || p.2.status == ExtractionStatus.FAILED) = fs.length := by
      rw [List.countP_eq_length]
      intro p hp
      rcases hall p hp with h1 | h1 <;> simp [h1]
    have hcf : countStatus ExtractionStatus.COMPLETED fs
        + countStatus ExtractionStatus.FAILED fs = s.total_files := by
      rw [htotal, hterm]; exact hTlen
    refine ⟨⟨?_, ?_⟩, ?_⟩
    · intro hsf
      rw [hstat] at hsf
      unfold session_status_of at hsf
      rw [if_pos hcf] at hsf
      by_cases hft : countStatus ExtractionStatus.FAILED fs = s.total_files
      · exact (countStatus_eq_length_iff _ _).1 (hft.trans htotal)
      · rw [if_neg hft] at hsf
        exact absurd hsf (by decide)
    · intro hallf
      have hft : countStatus ExtractionStatus.FAILED fs = s.total_files := by
        rw [htotal]; exact (countStatus_eq_length_iff _ _).2 hallf
      rw [hstat]
      unfold session_status_of
      rw [if_pos hcf, if_pos hft]
    · intro hnallf
      have hft : countStatus ExtractionStatus.FAILED fs ≠ s.total_files := by
        intro he
        exact hnallf ((countStatus_eq_length_iff _ _).1 (he.trans htotal))
      rw [hstat]
      unfold session_status_of
      rw [if_pos hcf, if_neg hft]
  · intro hex hnall
    have hTpos : 0 < fs.countP (fun p => p.2.status == ExtractionStatus.COMPLETED
        || p.2.status == ExtractionStatus.FAILED) := by
      rw [List.countP_pos_iff]
      obtain ⟨p, hp, h1⟩ := hex
      exact ⟨p, hp, by rcases h1 with h1 | h1 <;> simp [h1]⟩
    have hTne : fs.countP (fun p => p.2.status == ExtractionStatus.COMPLETED
        || p.2.status == ExtractionStatus.FAILED) ≠ fs.length := by
      intro he
      refine hnall (fun p hp => ?_)
      have h2 := List.countP_eq_length.1 he p hp
      simpa using h2
    rw [hstat]
    unfold session_status_of
    rw [if_neg (by rw [htotal, hterm]; exact hTne), if_pos (by rw [hterm]; exact hTpos)]
  · intro hne hnone
    have hT0 : fs.countP (fun p => p.2.status == ExtractionStatus.COMPLETED
        || p.2.status == ExtractionStatus.FAILED) = 0 := by
      rw [List.countP_eq_zero]
      intro p hp
      simpa using hnone p hp
    have hlen0 : 0 < fs.length := List.length_pos.2 hne
    rw [hstat]
    unfold session_status_of
    rw [if_neg (by rw [htotal, hterm, hT0]; omega), if_neg (by rw [hterm, hT0]; omega)]

def sampleSessionC1 : SessionProgress :=
  ⟨"w1", 2, 0, 0, none, 0, ExtractionStatus.PENDING⟩

def sampleFilesC1 : List (String × FileProgress) :=
  [("f1", ⟨"f1", "a.pdf", ExtractionStatus.COMPLETED, 100, none⟩),
   ("f2", ⟨"f2", "b.pdf", ExtractionStatus.FAILED, 100, some "boom"⟩)]

/-- Witness for C1: one completed file and one failed file of two give
session status `completed`. -/
theorem C1_terminal_rule_witness :
    (update_session_core sampleSessionC1 sampleFilesC1 "f2").status
      = ExtractionStatus.COMPLETED :=
  ((C1_terminal_rule sampleSessionC1 sampleFilesC1 "f2" rfl).1 (by decide)).2 (by decide)

/-- C2: after `initialize_session` and any sequence of `update_file_progress`
calls on the session, the stored `completed_files` and `failed_files` equal
the counts of files with those statuses over the current file set, and their
sum never exceeds `total_files`.  (The update list is universally
quantified, so the invariant holds after each call of every sequence.) -/
theorem C2_aggregation_invariant (t0 : ProgressTracker) (session_id : String)
    (file_ids filenames : List String) (updates : List UpdateCall) :
    ∃ s, get_session_progress
        (applyUpdates (initialize_session t0 session_id file_ids filenames)
          session_id updates) session_id = some s ∧
      s.completed_files = countStatus ExtractionStatus.COMPLETED
        (get_all_files_progress (applyUpdates (initialize_session t0 session_id file_ids
          filenames) session_id updates) session_id) ∧
      s.failed_files = countStatus ExtractionStatus.FAILED
        (get_all_files_progress (applyUpdates (initialize_session t0 session_id file_ids
          filenames) session_id updates) session_id) ∧
      s.completed_files + s.failed_files ≤ s.total_files := by
  obtain ⟨s, fs, hs, hf, hc, hfl, hlen⟩ :=
    trackerInv_applyUpdates _ session_id updates
      (trackerInv_init t0 session_id file_ids filenames)
  refine ⟨s, hs, ?_, ?_, ?_⟩
  · simp only [get_all_files_progress, hf, Option.getD_some]
    exact hc
  · simp only [get_all_files_progress, hf, Option.getD_some]
    exact hfl
  · rw [hc, hfl]
    exact Nat.le_trans (countStatus_add_le fs) hlen

/-- A session's file set with `completedCount` completed files and the rest
pending, `totalCount` in all (keys are the decimal indices). -/
def manyFiles (completedCount totalCount : Nat) : List (String × FileProgress) :=
  (List.range totalCount).map (fun i =>
    (natRepr i, ⟨natRepr i, natRepr i,
      if i < completedCount then ExtractionStatus.COMPLETED else ExtractionStatus.PENDING,
      0, none⟩))

/-- C3: the source computes `overall_progress` as
`int(((completed + failed) / total_files) * 100)` in binary64 floating
point; at 29 terminal files of 50 this yields 57, while the specified exact
value `floor((29 / 50) * 100)` is 58 — the recomputation stores 57. -/
theorem C3_overall_progress_float_divergence :
    overall_progress_py 29 50 = 57 ∧
    (29 * 100) / 50 = 58 ∧
    (update_session_core ⟨"s3", 50, 0, 0, none, 0, ExtractionStatus.PENDING⟩
        (manyFiles 29 50) "0").overall_progress = 57 := by
  refine ⟨by decide, by decide, by decide⟩

/-- C4 (amended): immediately after `initialize_session` with an empty file
list, `get_session_progress` reports `overall_progress = 0` and status
`pending` — not 100 and `completed`: the 100%-derivation only runs inside
`_update_session_progress`, which no update can trigger for a session with
no registered files. -/
theorem C4_zero_file_session_report (t : ProgressTracker) (session_id : String) :
    get_session_progress (initialize_session t session_id [] []) session_id
      = some ⟨session_id, 0, 0, 0, none, 0, ExtractionStatus.PENDING⟩ :=
  lookupA_insertA_self _ _ _

/-- Counterexample to C4 as stated: the zero-file session's first report is
`overall_progress = 0` with status `pending`, not 100 with `completed`. -/
theorem C4_zero_file_counterexample :
    (get_session_progress (initialize_session emptyTracker "s0" [] []) "s0").map
        SessionProgress.overall_progress = some 0 ∧
    (get_session_progress (initialize_session emptyTracker "s0" [] []) "s0").map
        SessionProgress.status = some ExtractionStatus.PENDING ∧
    (0 : Int) ≠ 100 ∧ ExtractionStatus.PENDING ≠ ExtractionStatus.COMPLETED := by
  refine ⟨rfl, rfl, by decide, by decide⟩

/-- C5: initializing a session with N unique file ids and N filenames
registers exactly N file records, each pending at progress 0, and a session
record with `total_files = N`, status `pending` and zero counts. -/
theorem C5_initialization_invariant (t : ProgressTracker) (session_id : String)
    (file_ids filenames : List String) (hnd : file_ids.Nodup)
    (hlen : file_ids.length = filenames.length) :
    (get_all_files_progress (initialize_session t session_id file_ids filenames)
        session_id).length = file_ids.length ∧
    (∀ p ∈ get_all_files_progress (initialize_session t session_id file_ids filenames)
        session_id, (p : String × FileProgress).2.status = ExtractionStatus.PENDING ∧
        (p : String × FileProgress).2.progress = 0) ∧
    ∃ s, get_session_progress (initialize_session t session_id file_ids filenames)
        session_id = some s ∧ s.total_files = file_ids.length ∧
      s.status = ExtractionStatus.PENDING ∧ s.completed_files = 0 ∧ s.failed_files = 0 := by
  have hga : get_all_files_progress (initialize_session t session_id file_ids filenames)
      session_id = initFiles file_ids filenames := by
    simp only [get_all_files_progress, initialize_session, lookupA_insertA_self,
      Option.getD_some]
  refine ⟨?_, ?_, ?_⟩
  · rw [hga]
    exact initFiles_length file_ids filenames hnd hlen.le
  · rw [hga]
    intro p hp
    exact ⟨(initFiles_mem _ _ p hp).1, (initFiles_mem _ _ p hp).2.1⟩
  · exact ⟨_, lookupA_insertA_self _ _ _, rfl, rfl, rfl, rfl⟩

/-- Witness for C5 at a concrete two-file session. -/
theorem C5_initialization_witness :
    (get_all_files_progress (initialize_session emptyTracker "w5" ["f1", "f2"]
        ["a.pdf", "b.pdf"]) "w5").length = 2 ∧
    (get_session_progress (initialize_session emptyTracker "w5" ["f1", "f2"]
        ["a.pdf", "b.pdf"]) "w5").map SessionProgress.total_files = some 2 := by
  obtain ⟨h1, _, s, hs, ht, _⟩ := C5_initialization_invariant emptyTracker "w5"
    ["f1", "f2"] ["a.pdf", "b.pdf"] (by decide) rfl
  refine ⟨h1, ?_⟩
  rw [hs]
  show some s.total_files = some 2
  rw [ht]
  rfl

/-- C6: `update_file_progress` with a session id absent from the tracker, or
with a file id not registered in the session, returns the tracker unchanged
(no new entry, nothing raised — the operation is total). -/
theorem C6_unknown_id_noop (t : ProgressTracker) (session_id file_id status : String)
    (progress : Int) (error_message : Option String)
    (h : (lookupA t.file_progress session_id = none ∧
          lookupA t.sessions session_id = none) ∨
      ∃ fs, lookupA t.file_progress session_id = some fs ∧ lookupA fs file_id = none) :
    update_file_progress t session_id file_id status progress error_message = t := by
  rcases h with ⟨h1, _⟩ | ⟨fs, h1, h2⟩
  · simp only [update_file_progress, h1]
  · simp only [update_file_progress, h1, h2]

/-- Witness for C6: updating a never-initialized session of the empty
tracker changes nothing. -/
theorem C6_unknown_id_witness :
    update_file_progress emptyTracker "ghost" "f" ExtractionStatus.COMPLETED 100 none
      = emptyTracker :=
  C6_unknown_id_noop emptyTracker "ghost" "f" ExtractionStatus.COMPLETED 100 none
    (Or.inl ⟨rfl, rfl⟩)

/-- C7 (amended): `get_session_progress` returns the live stored record, not
a copy — an attribute assignment through the returned value (modelled by
`setStatusViaSnapshot`) is visible to every subsequent query. -/
theorem C7_live_record (t : ProgressTracker) (session_id v : String)
    (s : SessionProgress) (h : get_session_progress t session_id = some s) :
    get_session_progress (setStatusViaSnapshot t session_id v) session_id
      = some { s with status := v } := by
  unfold get_session_progress at h
  unfold get_session_progress setStatusViaSnapshot
  rw [h]
  exact lookupA_insertA_self _ _ _

/-- Counterexample to C7 as stated: assigning to the `status` of the value
`get_session_progress` returned changes what later queries report. -/
theorem C7_snapshot_counterexample :
    (get_session_progress (setStatusViaSnapshot
        (initialize_session emptyTracker "s7" ["f0"] ["a.pdf"]) "s7" "hacked") "s7").map
        SessionProgress.status = some "hacked" ∧
    (get_session_progress (initialize_session emptyTracker "s7" ["f0"] ["a.pdf"]) "s7").map
        SessionProgress.status = some ExtractionStatus.PENDING ∧
    ("hacked" : String) ≠ ExtractionStatus.PENDING := by
  refine ⟨rfl, rfl, by decide⟩

/-- Witness for C7 at a concrete one-file session. -/
theorem C7_live_record_witness :
    get_session_progress (setStatusViaSnapshot
        (initialize_session emptyTracker "w7" ["f"] ["a.pdf"]) "w7"
        ExtractionStatus.EXTRACTING) "w7"
      = some ⟨"w7", 1, 0, 0, none, 0, ExtractionStatus.EXTRACTING⟩ :=
  C7_live_record (initialize_session emptyTracker "w7" ["f"] ["a.pdf"]) "w7"
    ExtractionStatus.EXTRACTING ⟨"w7", 1, 0, 0, none, 0, ExtractionStatus.PENDING⟩ rfl

/-- The file record as `update_file_progress` overwrites it: status and
progress verbatim, `error_message` replaced by the argument (so `None` when
the argument is omitted, clearing any previous error). -/
def overwriteFile (fp : FileProgress) (status : String) (progress : Int)
    (error_message : Option String) : FileProgress :=
  { fp with status := status, progress := progress, error_message := error_message }

/-- C10: `update_file_progress` validates nothing: any status string and any
progress integer are stored verbatim on the registered record,
`error_message` is always overwritten by the argument, and a file whose
stored status is neither `completed` nor `failed` contributes to neither
session count. -/
theorem C10_update_no_validation (t : ProgressTracker)
    (session_id file_id status : String) (progress : Int) (error_message : Option String)
    (fs : List (String × FileProgress)) (fp : FileProgress)
    (h1 : lookupA t.file_progress session_id = some fs)
    (h2 : lookupA fs file_id = some fp) :
    lookupA (update_file_progress t session_id file_id status progress
        error_message).file_progress session_id
      = some (insertA fs file_id (overwriteFile fp status progress error_message)) ∧
    lookupA (insertA fs file_id (overwriteFile fp status progress error_message)) file_id
      = some (overwriteFile fp status progress error_message) ∧
    (overwriteFile fp status progress error_message).status = status ∧
    (overwriteFile fp status progress error_message).progress = progress ∧
    (overwriteFile fp status progress error_message).error_message = error_message ∧
    (status ≠ ExtractionStatus.COMPLETED → status ≠ ExtractionStatus.FAILED →
      countStatus ExtractionStatus.COMPLETED
          (insertA fs file_id (overwriteFile fp status progress error_message))
        + (if fp.status = ExtractionStatus.COMPLETED then 1 else 0)
        = countStatus ExtractionStatus.COMPLETED fs ∧
      countStatus ExtractionStatus.FAILED
          (insertA fs file_id (overwriteFile fp status progress error_message))
        + (if fp.status = ExtractionStatus.FAILED then 1 else 0)
        = countStatus ExtractionStatus.FAILED fs) ∧
    ∀ s, lookupA t.sessions session_id = some s →
      lookupA (update_file_progress t session_id file_id status progress
          error_message).sessions session_id
        = some (update_session_core s
            (insertA fs file_id (overwriteFile fp status progress error_message))
            file_id) := by
  have hkey := lookupA_insertA_self t.file_progress session_id
    (insertA fs file_id (overwriteFile fp status progress error_message))
  refine ⟨?_, lookupA_insertA_self _ _ _, rfl, rfl, rfl, ?_, ?_⟩
  · cases hs : lookupA t.sessions session_id with
    | none =>
      simp only [update_file_progress, h1, h2, update_session_progress, hs]
      exact hkey
    | some s =>
      simp only [update_file_progress, h1, h2, update_session_progress, hs]
      exact hkey
  · intro hc hf
    constructor
    · have h3 := countStatus_insertA fs file_id fp
        (overwriteFile fp status progress error_message) ExtractionStatus.COMPLETED h2
      rw [if_neg (show ¬(overwriteFile fp status progress error_message).status
          = ExtractionStatus.COMPLETED from hc)] at h3
      omega
    · have h3 := countStatus_insertA fs file_id fp
        (overwriteFile fp status progress error_message) ExtractionStatus.FAILED h2
      rw [if_neg (show ¬(overwriteFile fp status progress error_message).status
          = ExtractionStatus.FAILED from hf)] at h3
      omega
  · intro s hs
    have hkey2 : lookupA (insertA t.file_progress session_id (insertA fs file_id
        { fp with status := status, progress := progress,
                  error_message := error_message })) session_id
        = some (insertA fs file_id
          { fp with status := status, progress := progress,
                    error_message := error_message }) :=
      lookupA_insertA_self _ _ _
    simp only [update_file_progress, h1, h2, update_session_progress, hs, hkey2,
      Option.getD_some]
    exact lookupA_insertA_self _ _ _

def sampleT10 : ProgressTracker :=
  update_file_progress (initialize_session emptyTracker "w10" ["f"] ["a.pdf"]) "w10" "f"
    ExtractionStatus.FAILED 100 (some "boom")

/-- Witness for C10: a made-up status and an out-of-range progress are
stored verbatim, and the previously stored error message is cleared. -/
theorem C10_update_witness :
    lookupA (update_file_progress sampleT10 "w10" "f" "bogus-status" (-5)
        none).file_progress "w10"
      = some [("f", ⟨"f", "a.pdf", "bogus-status", -5, none⟩)] :=
  (C10_update_no_validation sampleT10 "w10" "f" "bogus-status" (-5) none
    [("f", ⟨"f", "a.pdf", ExtractionStatus.FAILED, 100, some "boom"⟩)]
    ⟨"f", "a.pdf", ExtractionStatus.FAILED, 100, some "boom"⟩ (by decide) (by decide)).1

/-- A frame carrying the JSON serialization of some JSON value, in the SSE
wire format of `to_sse_message`. -/
def isJsonSnapshotFrame (frame : String) : Prop :=
  ∃ v : Json, frame = "data: " ++ Json.dumps v ++ "\n\n"

/-- C8 (amended): every frame the streaming endpoint emits consists of the
prefix `data: `, a newline-free payload, and the two-newline terminator; the
tick and termination frames carry the JSON-encoded snapshot, while the
session-not-found frame carries the fixed single-quoted text (which is not a
JSON encoding — see the counterexample). -/
theorem C8_frame_format (σ : Nat → ProgressTracker) (session_id frame : String)
    (h : frame ∈ progress_stream σ session_id) :
    (∃ payload, frame = "data: " ++ payload ++ "\n\n" ∧ noNL payload) ∧
    (frame = sessionNotFoundFrame ∨
      ∃ k, frame = to_sse_message (σ k) session_id) := by
  have halt : frame = sessionNotFoundFrame ∨
      ∃ k, frame = to_sse_message (σ k) session_id := by
    simp only [progress_stream] at h
    rcases List.mem_append.1 h with h1 | h1
    · rcases List.mem_cons.1 h1 with h2 | h2
      · exact Or.inr ⟨0, h2⟩
      · exact mem_sseLoop σ session_id 600 1 frame h2
    · simp only [List.mem_cons, List.not_mem_nil, or_false] at h1
      exact Or.inr ⟨(sseLoop σ session_id 1 600).2, h1⟩
  refine ⟨?_, halt⟩
  rcases halt with rfl | ⟨k, rfl⟩
  · exact ⟨sessionNotFoundText, rfl, by decide⟩
  · exact ⟨Json.dumps (to_dict (σ k) session_id), rfl, noNL_dumps_to_dict _ _⟩

/-- Counterexample to C8 as stated: the error-path frame the stream emits
for an unknown session is not the JSON encoding of any value (its payload is
Python dict-repr text with single quotes). -/
theorem C8_error_frame_counterexample :
    sessionNotFoundFrame ∈ progress_stream (fun _ => emptyTracker) "s1" ∧
    ¬ isJsonSnapshotFrame sessionNotFoundFrame := by
  constructor
  · have heq : progress_stream (fun _ => emptyTracker) "s1"
        = [to_sse_message emptyTracker "s1", sessionNotFoundFrame,
           to_sse_message emptyTracker "s1"] := by
      simp [progress_stream, sseLoop, get_session_progress, lookupA]
    rw [heq]
    simp
  · rintro ⟨v, hv⟩
    have hd := congrArg String.data hv
    simp only [sessionNotFoundFrame, String.data_append] at hd
    exact dumps_ne_sessionNotFoundText v (String.ext (List.append_cancel_left
      (List.append_cancel_right hd))).symm

def sampleT8 : ProgressTracker :=
  update_file_progress (initialize_session emptyTracker "w8" ["f"] ["a.pdf"]) "w8" "f"
    ExtractionStatus.COMPLETED 100 none

/-- Witness for C8: the initial frame of a stream over a completed session
is a well-formed snapshot frame. -/
theorem C8_frame_format_witness :
    (∃ payload, to_sse_message sampleT8 "w8" = "data: " ++ payload ++ "\n\n" ∧
      noNL payload) ∧
    (to_sse_message sampleT8 "w8" = sessionNotFoundFrame ∨
      ∃ k : Nat, to_sse_message sampleT8 "w8"
        = to_sse_message ((fun _ : Nat => sampleT8) k) "w8") :=
  C8_frame_format (fun _ => sampleT8) "w8" (to_sse_message sampleT8 "w8") (by
    simp only [progress_stream]
    exact List.mem_append_left _ (List.mem_cons_self _ _))

/-- C9 (amended): when the streaming endpoint emits the session-not-found
error event it emits it once, then emits exactly one further frame — the
generator's final snapshot message (for a vanished session, `data: {}`) —
and the stream ends. -/
theorem C9_error_then_final_frame (σ : Nat → ProgressTracker) (session_id : String)
    (h : sessionNotFoundFrame ∈ progress_stream σ session_id) :
    ∃ pre k, progress_stream σ session_id
        = pre ++ [sessionNotFoundFrame, to_sse_message (σ k) session_id] ∧
      sessionNotFoundFrame ∉ pre := by
  simp only [progress_stream] at h ⊢
  rcases List.mem_append.1 h with h1 | h1
  · rcases List.mem_cons.1 h1 with h2 | h2
    · exact absurd h2.symm (to_sse_ne_error_frame _ _)
    · obtain ⟨pre, hpre, hnot⟩ := sseLoop_error_last σ session_id 600 1 h2
      refine ⟨to_sse_message (σ 0) session_id :: pre, (sseLoop σ session_id 1 600).2,
        ?_, ?_⟩
      · rw [hpre]
        simp [List.append_assoc]
      · intro hc
        rcases List.mem_cons.1 hc with hc1 | hc1
        · exact to_sse_ne_error_frame _ _ hc1.symm
        · exact hnot hc1
  · simp only [List.mem_cons, List.not_mem_nil, or_false] at h1
    exact absurd h1.symm (to_sse_ne_error_frame _ _)

/-- Counterexample to C9 as stated: for an unknown session the stream emits
the error event and then one more frame (the final snapshot message), so
frames do follow the error event. -/
theorem C9_stream_counterexample :
    progress_stream (fun _ => emptyTracker) "s2"
      = [to_sse_message emptyTracker "s2", sessionNotFoundFrame,
         to_sse_message emptyTracker "s2"] ∧
    to_sse_message emptyTracker "s2" ≠ sessionNotFoundFrame := by
  constructor
  · simp [progress_stream, sseLoop, get_session_progress, lookupA]
  · exact to_sse_ne_error_frame _ _

/-- Witness for C9: the error-and-final-frame shape at a concrete stream
over the empty tracker. -/
theorem C9_error_witness :
    ∃ (pre : List String) (k : Nat), progress_stream (fun _ => emptyTracker) "w9"
        = pre ++ [sessionNotFoundFrame,
          to_sse_message ((fun _ : Nat => emptyTracker) k) "w9"] ∧
      sessionNotFoundFrame ∉ pre :=
  C9_error_then_final_frame (fun _ => emptyTracker) "w9" (by
    simp [progress_stream, sseLoop, get_session_progress, lookupA])
